import Mathlib

/-!
Shallow embedding of the tag-value resolution core of the
GamplayTagValueSystem Unreal Engine plugin
(Source/GamplayTagValue/…), together with proofs about it.

Conventions:
* `FGameplayTag` is an interned hierarchical dotted-path identifier; we
  embed it as its list of path segments (`a.b.c` = `["a","b","c"]`).
  `IsValid` is non-emptiness; `RequestDirectParent` drops the last segment.
* `FName` is embedded as `String`; the distinguished `NAME_None` value of
  optional name parameters is embedded as `Option.none`.
* Engine value payloads (`double`, `FTransform`, `FSoftClassPath`,
  `FSoftObjectPath`, …) are never computed with by the resolution core —
  they are only stored and returned — so they are embedded as opaque
  wrapper types with decidable equality.
* `TSharedPtr<T>` parameters and results that may be null are embedded as
  `Option`; a null pointer is `none`.
-/

/-- An `FGameplayTag`: the list of dotted-path segments. -/
structure GameplayTag where
  segments : List String
deriving DecidableEq, Repr

/-- FGameplayTag::IsValid — a tag with no segments is the invalid tag. -/
def GameplayTag.isValid (t : GameplayTag) : Bool :=
  !t.segments.isEmpty

/-- FGameplayTag::RequestDirectParent — drop the last path segment;
the parent of a single-segment tag is the invalid (empty) tag. -/
def GameplayTag.requestDirectParent (t : GameplayTag) : GameplayTag :=
  ⟨t.segments.dropLast⟩

/-- Loop body of the parent-tag walks in GetRawValue and HasTagValue
(`ParentTag = Tag.RequestDirectParent(); while (ParentTag.IsValid()) …`):
the chain of ancestors from nearest to furthest.  The walk shortens the
tag by one segment per step, so running it on `fuel = segments.length`
steps never cuts it short; structural recursion on the fuel keeps the
definition kernel-reducible. -/
def ancestorChainGo : Nat → GameplayTag → List GameplayTag
  | 0, _ => []
  | fuel + 1, t =>
    let p := t.requestDirectParent
    if p.isValid then p :: ancestorChainGo fuel p else []

/-- The ancestors of a tag from nearest to furthest:
`a.b.c ↦ [a.b, a]`. -/
def ancestorChain (t : GameplayTag) : List GameplayTag :=
  ancestorChainGo t.segments.length t

/-- Opaque stand-in for a stored C++ `double` (the resolution core never
does arithmetic on it). -/
structure DoubleVal where
  bits : Nat
deriving DecidableEq, Repr

/-- Opaque stand-in for a stored C++ `float`. -/
structure FloatVal where
  bits : Nat
deriving DecidableEq, Repr

/-- Opaque stand-in for a stored `FTransform`. -/
structure TransformVal where
  rep : Nat
deriving DecidableEq, Repr

/-- A soft class reference (`FSoftClassPath` / `TSoftClassPtr<UObject>`),
embedded as its asset path. -/
structure SoftClassPath where
  path : String
deriving DecidableEq, Repr

/-- A soft object reference (`FSoftObjectPath` / `TSoftObjectPtr<UObject>`),
embedded as its asset path. -/
structure SoftObjectPath where
  path : String
deriving DecidableEq, Repr

/-!
The subsystem snapshot stores values through the type-erased
`ITagValueHolder` interface; the only holders it ever creates are
`TTagValueHolder<T>` for the six payload types of its typed accessors
(see the explicit template instantiations at the bottom of
GameplayTagValueSubsystem.cpp), so a holder is embedded as a sum over
those six payloads.
-/

/-- A `TTagValueHolder<T>` object, for the six `T` the subsystem
instantiates. -/
inductive Holder where
  | boolV (v : Bool)
  | intV (v : Int)
  | floatV (v : DoubleVal)
  | transformV (v : TransformVal)
  | classV (v : SoftClassPath)
  | objectV (v : SoftObjectPath)
deriving DecidableEq, Repr

/-- ITagValueHolder::GetValueTypeName — the engine reflection name
(`TBaseStructure<T>::Get()->GetFName()`) of the held type; only the
identity of these names matters to the code. -/
def Holder.getValueTypeName : Holder → String
  | .boolV _ => "bool"
  | .intV _ => "int32"
  | .floatV _ => "double"
  | .transformV _ => "Transform"
  | .classV _ => "SoftClassPath"
  | .objectV _ => "SoftObjectPath"

/-- Index of the six typed accessor pairs the subsystem declares
(GetBoolValue/SetBoolValue, …, GetObjectValue/SetObjectValue), i.e.
the six types `T` at which `GetTypedValue<T>`/`SetTypedValue<T>` are
instantiated. -/
inductive VKind where
  | boolKind
  | intKind
  | floatKind
  | transformKind
  | classKind
  | objectKind
deriving DecidableEq, Repr

/-- All six accessor kinds. -/
def VKind.all : List VKind :=
  [.boolKind, .intKind, .floatKind, .transformKind, .classKind, .objectKind]

/-- The payload type `T` of each typed accessor pair. -/
def VKind.carrier : VKind → Type
  | .boolKind => Bool
  | .intKind => Int
  | .floatKind => DoubleVal
  | .transformKind => TransformVal
  | .classKind => SoftClassPath
  | .objectKind => SoftObjectPath

instance : (κ : VKind) → DecidableEq κ.carrier
  | .boolKind => inferInstanceAs (DecidableEq Bool)
  | .intKind => inferInstanceAs (DecidableEq Int)
  | .floatKind => inferInstanceAs (DecidableEq DoubleVal)
  | .transformKind => inferInstanceAs (DecidableEq TransformVal)
  | .classKind => inferInstanceAs (DecidableEq SoftClassPath)
  | .objectKind => inferInstanceAs (DecidableEq SoftObjectPath)

/-- The name `TBaseStructure<T>::Get()->GetFName()` for the accessor type `T`,
compared against `Holder.getValueTypeName` in
`TryGetValueFromRepositories`. -/
def VKind.expectedTypeName : VKind → String
  | .boolKind => "bool"
  | .intKind => "int32"
  | .floatKind => "double"
  | .transformKind => "Transform"
  | .classKind => "SoftClassPath"
  | .objectKind => "SoftObjectPath"

/-- The `FName TypeName == ExpectedTypeName` check of
`TryGetValueFromRepositories<T>` followed by the
`*static_cast<T*>(GetValuePtr())` read: in the sum embedding the type
names of two holders coincide exactly when their constructors do, so the
check-and-cast is a constructor match. -/
def Holder.decode : (κ : VKind) → Holder → Option κ.carrier
  | .boolKind, .boolV v => some v
  | .intKind, .intV v => some v
  | .floatKind, .floatV v => some v
  | .transformKind, .transformV v => some v
  | .classKind, .classV v => some v
  | .objectKind, .objectV v => some v
  | _, _ => none

/-- The holder `MakeShared<TTagValueHolder<T>>(Value)` built in `SetTypedValue<T>`. -/
def VKind.mkHolder : (κ : VKind) → κ.carrier → Holder
  | .boolKind, v => .boolV v
  | .intKind, v => .intV v
  | .floatKind, v => .floatV v
  | .transformKind, v => .transformV v
  | .classKind, v => .classV v
  | .objectKind, v => .objectV v

/-- A per-call context object: a `UObject` implementing `ITagValueInterface`
(TagValueInterface.h).  The interface is abstract; an implementor is
embedded as its family of member functions.  The optional `Context`
parameter of the subsystem calls is `Option TagValueContext`: `none`
covers both a null pointer and an object that does not implement the
interface (`ImplementsTagValueInterface` false). -/
structure TagValueContext where
  hasTagValue : GameplayTag → Bool
  getBoolValue : GameplayTag → Bool → Bool
  getIntValue : GameplayTag → Int → Int
  getFloatValue : GameplayTag → DoubleVal → DoubleVal
  getTransformValue : GameplayTag → TransformVal → TransformVal
  getClassValue : GameplayTag → SoftClassPath → SoftClassPath
  getObjectValue : GameplayTag → SoftObjectPath → SoftObjectPath

/-- The `if constexpr` dispatch of
`UGameplayTagValueSubsystem::TryGetValueFromContext<T>` onto the
interface getter for `T`. -/
def TagValueContext.getTyped (c : TagValueContext) :
    (κ : VKind) → GameplayTag → κ.carrier → κ.carrier
  | .boolKind, tag, d => c.getBoolValue tag d
  | .intKind, tag, d => c.getIntValue tag d
  | .floatKind, tag, d => c.getFloatValue tag d
  | .transformKind, tag, d => c.getTransformValue tag d
  | .classKind, tag, d => c.getClassValue tag d
  | .objectKind, tag, d => c.getObjectValue tag d

/-- TMap::Find — association-list lookup for the repository's
`TMap<FGameplayTag, TSharedPtr<ITagValueHolder>>`. -/
def mapFind : List (GameplayTag × Holder) → GameplayTag → Option Holder
  | [], _ => none
  | (t, v) :: rest, tag => if t = tag then some v else mapFind rest tag

/-- TMap::Add — replace the value at an existing key, else append. -/
def mapAdd : List (GameplayTag × Holder) → GameplayTag → Holder →
    List (GameplayTag × Holder)
  | [], tag, v => [(tag, v)]
  | (t, w) :: rest, tag, v =>
    if t = tag then (tag, v) :: rest else (t, w) :: mapAdd rest tag v

/-- TMap::Remove — drop the entries at the key (a TMap holds at most
one). -/
def mapRemove : List (GameplayTag × Holder) → GameplayTag →
    List (GameplayTag × Holder)
  | [], _ => []
  | (t, w) :: rest, tag =>
    if t = tag then mapRemove rest tag else (t, w) :: mapRemove rest tag

/-- FMemoryTagValueRepository — the in-memory `ITagValueRepository`
implementation the subsystem creates and registers
(GameplayTagValueSubsystem.cpp, lines 14-64). -/
structure MemoryRepository where
  repositoryName : String
  priority : Int
  tagValues : List (GameplayTag × Holder)
deriving DecidableEq, Repr

/-- FMemoryTagValueRepository::HasValue — `TagValues.Contains(Tag)`. -/
def MemoryRepository.hasValue (r : MemoryRepository) (tag : GameplayTag) : Bool :=
  (mapFind r.tagValues tag).isSome

/-- FMemoryTagValueRepository::GetValue — `TagValues.Find(Tag)`, null when
absent. -/
def MemoryRepository.getValue (r : MemoryRepository) (tag : GameplayTag) :
    Option Holder :=
  mapFind r.tagValues tag

/-- FMemoryTagValueRepository::SetValue — guarded by
`Tag.IsValid() && Value.IsValid()` (`Value` is a possibly-null shared
pointer). -/
def MemoryRepository.setValue (r : MemoryRepository) (tag : GameplayTag)
    (value : Option Holder) : MemoryRepository :=
  match value with
  | some v =>
    if tag.isValid then { r with tagValues := mapAdd r.tagValues tag v } else r
  | none => r

/-- FMemoryTagValueRepository::RemoveValue. -/
def MemoryRepository.removeValue (r : MemoryRepository) (tag : GameplayTag) :
    MemoryRepository :=
  { r with tagValues := mapRemove r.tagValues tag }

/-- FMemoryTagValueRepository::ClearAllValues. -/
def MemoryRepository.clearAllValues (r : MemoryRepository) : MemoryRepository :=
  { r with tagValues := [] }

/-- FMemoryTagValueRepository::GetAllTags. -/
def MemoryRepository.getAllTags (r : MemoryRepository) : List GameplayTag :=
  r.tagValues.map (·.1)

/-- An `OnTagValueChanged` broadcast, as documented on the delegate
(GameplayTagValueSubsystem.h, lines 13-20): the changed tag, the
repository where the change occurred, the previous value (null when none
existed) and the new value (null when removed). -/
structure ChangeEvent where
  tag : GameplayTag
  repositoryName : String
  oldValue : Option Holder
  newValue : Option Holder
deriving DecidableEq, Repr

/-- UGameplayTagValueSubsystem state: the `Repositories` array and the
`OnTagValueChanged` multicast delegate, the latter embedded as the
history of broadcasts made on it (an observer sees exactly this
sequence of invocations). -/
structure Subsystem where
  repositories : List MemoryRepository
  onTagValueChanged : List ChangeEvent
deriving DecidableEq, Repr

/-- UGameplayTagValueSubsystem::DefaultRepositoryName. -/
def defaultRepositoryName : String := "Default"

/-- UGameplayTagValueSubsystem::DefaultRepositoryPriority. -/
def defaultRepositoryPriority : Int := 100

/-- The comparator of `Repositories.Sort` in RegisterRepository
(`A->GetPriority() > B->GetPriority()`): the sort leaves the array
ordered with the highest priority first, i.e. pairwise
`B.priority ≤ A.priority`.  (Tie order between equal priorities is
unspecified in the source; the embedding fixes it by using a stable
insertion sort.) -/
def repoOrder (a b : MemoryRepository) : Prop :=
  b.priority ≤ a.priority

instance : DecidableRel repoOrder := fun a b =>
  inferInstanceAs (Decidable (b.priority ≤ a.priority))

instance : IsTotal MemoryRepository repoOrder :=
  ⟨fun a b => (Int.le_total b.priority a.priority)⟩

instance : IsTrans MemoryRepository repoOrder :=
  ⟨fun _ _ _ hab hbc => le_trans hbc hab⟩

/-- UGameplayTagValueSubsystem::UnregisterRepository —
`Repositories.RemoveAll(name matches)`. -/
def Subsystem.unregisterRepository (s : Subsystem) (repositoryName : String) :
    Subsystem :=
  { s with repositories :=
      s.repositories.filter fun r => !decide (r.repositoryName = repositoryName) }

/-- UGameplayTagValueSubsystem::RegisterRepository — remove any
repository with the same name, append the new one, then sort the array
by priority, highest first. -/
def Subsystem.registerRepository (s : Subsystem) (repository : MemoryRepository) :
    Subsystem :=
  let afterRemove := s.unregisterRepository repository.repositoryName
  { afterRemove with repositories :=
      List.insertionSort repoOrder (afterRemove.repositories ++ [repository]) }

/-- UGameplayTagValueSubsystem::GetRepository — first registered
repository with the given name. -/
def Subsystem.getRepository (s : Subsystem) (repositoryName : String) :
    Option MemoryRepository :=
  s.repositories.find? fun r => decide (r.repositoryName = repositoryName)

/-- UGameplayTagValueSubsystem::GetBestRepository — the named repository
when the name is given and registered, else the repository named
`Default`. -/
def Subsystem.getBestRepository (s : Subsystem) (repositoryName : Option String) :
    Option MemoryRepository :=
  match repositoryName with
  | some n =>
    match s.getRepository n with
    | some r => some r
    | none => s.getRepository defaultRepositoryName
  | none => s.getRepository defaultRepositoryName

/-- Update the first repository with the given name in place.  The C++
mutates through the shared pointer that `GetRepository` returned, which
is the first array entry carrying that name. -/
def updateFirstNamed : List MemoryRepository → String →
    (MemoryRepository → MemoryRepository) → List MemoryRepository
  | [], _, _ => []
  | r :: rest, name, f =>
    if r.repositoryName = name then f r :: rest
    else r :: updateFirstNamed rest name f

/-- The exact-match sweep of GetRawValue
(`for Repository in Repositories { if HasValue(Tag) return GetValue(Tag) }`):
the value of the first repository in array order that has the tag. -/
def findExactValue : List MemoryRepository → GameplayTag → Option Holder
  | [], _ => none
  | r :: rest, tag =>
    if r.hasValue tag then r.getValue tag else findExactValue rest tag

/-- The hierarchical part of GetRawValue: run the exact-match sweep at
each level of a parent chain, keeping the first hit.  (For memory
repositories `HasValue` holds exactly when `GetValue` is non-null, so the
sweep at a level yields `none` precisely when no repository has that
level.) -/
def findInHierarchy : List MemoryRepository → List GameplayTag → Option Holder
  | _, [] => none
  | repos, level :: rest =>
    match findExactValue repos level with
    | some h => some h
    | none => findInHierarchy repos rest

/-- UGameplayTagValueSubsystem::GetRawValue
(GameplayTagValueSubsystem.cpp, lines 175-209).  The `Context` branch at
the top of the source function is an empty block (its body is only the
comment «Context objects handle their own tag hierarchy, so we don't
need to check parent tags here»), so the `context` argument is never
consulted: the repositories are checked for an exact match, then each
ancestor from nearest to furthest. -/
def Subsystem.getRawValue (s : Subsystem) (tag : GameplayTag)
    (context : Option TagValueContext) : Option Holder :=
  match findExactValue s.repositories tag with
  | some h => some h
  | none => findInHierarchy s.repositories (ancestorChain tag)

/-- UGameplayTagValueSubsystem::HasTagValue
(GameplayTagValueSubsystem.cpp, lines 136-173): the context if provided,
then the repositories at the exact tag, then at each ancestor. -/
def Subsystem.hasTagValue (s : Subsystem) (tag : GameplayTag)
    (context : Option TagValueContext) : Bool :=
  (match context with
   | some c => c.hasTagValue tag
   | none => false)
  || s.repositories.any (fun r => r.hasValue tag)
  || (ancestorChain tag).any fun level =>
       s.repositories.any fun r => r.hasValue level

/-- UGameplayTagValueSubsystem::SetRawValue
(GameplayTagValueSubsystem.cpp, lines 211-226): fail on an invalid tag
or a null value, find the target via GetBestRepository (failing when
none exists), and write through it.  Returns the success flag and the
updated state. -/
def Subsystem.setRawValue (s : Subsystem) (tag : GameplayTag)
    (value : Option Holder) (repositoryName : Option String) :
    Bool × Subsystem :=
  if !tag.isValid || value.isNone then (false, s)
  else
    match s.getBestRepository repositoryName with
    | none => (false, s)
    | some target =>
      let repos := updateFirstNamed s.repositories target.repositoryName
        (fun r => r.setValue tag value)
      (true, { s with repositories := repos })

/-- UGameplayTagValueSubsystem::RemoveTagValue
(GameplayTagValueSubsystem.cpp, lines 228-261): with a name, remove from
that repository when it is registered and has the tag; with `NAME_None`,
remove from every repository that has the tag.  Returns whether anything
was removed, and the updated state. -/
def Subsystem.removeTagValue (s : Subsystem) (tag : GameplayTag)
    (repositoryName : Option String) : Bool × Subsystem :=
  if !tag.isValid then (false, s)
  else
    match repositoryName with
    | some n =>
      match s.getRepository n with
      | some r =>
        if r.hasValue tag then
          let repos := updateFirstNamed s.repositories n
            (fun r2 => r2.removeValue tag)
          (true, { s with repositories := repos })
        else (false, s)
      | none => (false, s)
    | none =>
      let repos := s.repositories.map
        (fun r => if r.hasValue tag then r.removeValue tag else r)
      (s.repositories.any (fun r => r.hasValue tag),
       { s with repositories := repos })

/-- UGameplayTagValueSubsystem::ClearAllValues
(GameplayTagValueSubsystem.cpp, lines 263-282): clear the named
repository, or every repository when the name is `NAME_None`. -/
def Subsystem.clearAllValues (s : Subsystem) (repositoryName : Option String) :
    Subsystem :=
  match repositoryName with
  | some n =>
    let repos := updateFirstNamed s.repositories n (fun r => r.clearAllValues)
    { s with repositories := repos }
  | none =>
    { s with repositories := s.repositories.map (fun r => r.clearAllValues) }

/-- UGameplayTagValueSubsystem::BroadcastTagValueChanged — declared in
GameplayTagValueSubsystem.h (lines 293-301) with the documented payload,
but the source contains no definition of it and no call to it or to
`OnTagValueChanged.Broadcast`.  Modelled from the spec: invoking the
observers appends the event to the delegate's invocation history. -/
def Subsystem.broadcastTagValueChanged (s : Subsystem) (tag : GameplayTag)
    (repositoryName : String) (oldValue newValue : Option Holder) : Subsystem :=
  { s with onTagValueChanged :=
      s.onTagValueChanged ++ [⟨tag, repositoryName, oldValue, newValue⟩] }

/-- UGameplayTagValueSubsystem::TryGetValueFromContext<T>
(GameplayTagValueSubsystem.cpp, lines 550-598): fails when the context
is null or does not implement the interface, or when it does not claim
the tag; otherwise the interface getter's result. -/
def tryGetValueFromContext (κ : VKind) (context : Option TagValueContext)
    (tag : GameplayTag) (defaultValue : κ.carrier) : Option κ.carrier :=
  match context with
  | none => none
  | some c =>
    if c.hasTagValue tag then some (c.getTyped κ tag defaultValue) else none

/-- UGameplayTagValueSubsystem::TryGetValueFromRepositories<T>
(GameplayTagValueSubsystem.cpp, lines 600-627): GetRawValue with no
context, then the type-name check and cast. -/
def tryGetValueFromRepositories (κ : VKind) (s : Subsystem)
    (tag : GameplayTag) : Option κ.carrier :=
  match s.getRawValue tag none with
  | none => none
  | some h => h.decode κ

/-- UGameplayTagValueSubsystem::GetTypedValue<T>
(GameplayTagValueSubsystem.cpp, lines 629-652): the default on an
invalid tag, else the context value when available, else the repository
value when available, else the default. -/
def Subsystem.getTypedValue (κ : VKind) (s : Subsystem) (tag : GameplayTag)
    (defaultValue : κ.carrier) (context : Option TagValueContext) : κ.carrier :=
  if !tag.isValid then defaultValue
  else
    match tryGetValueFromContext κ context tag defaultValue with
    | some v => v
    | none =>
      match tryGetValueFromRepositories κ s tag with
      | some v => v
      | none => defaultValue

/-- UGameplayTagValueSubsystem::SetTypedValue<T>
(GameplayTagValueSubsystem.cpp, lines 654-664). -/
def Subsystem.setTypedValue (κ : VKind) (s : Subsystem) (tag : GameplayTag)
    (value : κ.carrier) (repositoryName : Option String) : Bool × Subsystem :=
  if !tag.isValid then (false, s)
  else s.setRawValue tag (some (κ.mkHolder value)) repositoryName

/-- UGameplayTagValueSubsystem::GetBoolValue. -/
def Subsystem.getBoolValue (s : Subsystem) (tag : GameplayTag)
    (defaultValue : Bool) (context : Option TagValueContext) : Bool :=
  s.getTypedValue .boolKind tag defaultValue context

/-- UGameplayTagValueSubsystem::SetBoolValue. -/
def Subsystem.setBoolValue (s : Subsystem) (tag : GameplayTag) (value : Bool)
    (repositoryName : Option String) : Bool × Subsystem :=
  s.setTypedValue .boolKind tag value repositoryName

/-- UGameplayTagValueSubsystem::GetIntValue. -/
def Subsystem.getIntValue (s : Subsystem) (tag : GameplayTag)
    (defaultValue : Int) (context : Option TagValueContext) : Int :=
  s.getTypedValue .intKind tag defaultValue context

/-- UGameplayTagValueSubsystem::SetIntValue. -/
def Subsystem.setIntValue (s : Subsystem) (tag : GameplayTag) (value : Int)
    (repositoryName : Option String) : Bool × Subsystem :=
  s.setTypedValue .intKind tag value repositoryName

/-- UGameplayTagValueSubsystem::GetFloatValue (a C++ `double`). -/
def Subsystem.getFloatValue (s : Subsystem) (tag : GameplayTag)
    (defaultValue : DoubleVal) (context : Option TagValueContext) : DoubleVal :=
  s.getTypedValue .floatKind tag defaultValue context

/-- UGameplayTagValueSubsystem::SetFloatValue. -/
def Subsystem.setFloatValue (s : Subsystem) (tag : GameplayTag) (value : DoubleVal)
    (repositoryName : Option String) : Bool × Subsystem :=
  s.setTypedValue .floatKind tag value repositoryName

/-- UGameplayTagValueSubsystem::GetTransformValue. -/
def Subsystem.getTransformValue (s : Subsystem) (tag : GameplayTag)
    (defaultValue : TransformVal) (context : Option TagValueContext) :
    TransformVal :=
  s.getTypedValue .transformKind tag defaultValue context

/-- UGameplayTagValueSubsystem::SetTransformValue. -/
def Subsystem.setTransformValue (s : Subsystem) (tag : GameplayTag)
    (value : TransformVal) (repositoryName : Option String) : Bool × Subsystem :=
  s.setTypedValue .transformKind tag value repositoryName

/-- UGameplayTagValueSubsystem::GetClassValue. -/
def Subsystem.getClassValue (s : Subsystem) (tag : GameplayTag)
    (defaultValue : SoftClassPath) (context : Option TagValueContext) :
    SoftClassPath :=
  s.getTypedValue .classKind tag defaultValue context

/-- UGameplayTagValueSubsystem::SetClassValue. -/
def Subsystem.setClassValue (s : Subsystem) (tag : GameplayTag)
    (value : SoftClassPath) (repositoryName : Option String) : Bool × Subsystem :=
  s.setTypedValue .classKind tag value repositoryName

/-- UGameplayTagValueSubsystem::GetObjectValue. -/
def Subsystem.getObjectValue (s : Subsystem) (tag : GameplayTag)
    (defaultValue : SoftObjectPath) (context : Option TagValueContext) :
    SoftObjectPath :=
  s.getTypedValue .objectKind tag defaultValue context

/-- UGameplayTagValueSubsystem::SetObjectValue.  (The subsystem declares
no GetStringValue/SetStringValue pair: these twelve wrappers are its
complete typed API.) -/
def Subsystem.setObjectValue (s : Subsystem) (tag : GameplayTag)
    (value : SoftObjectPath) (repositoryName : Option String) : Bool × Subsystem :=
  s.setTypedValue .objectKind tag value repositoryName

/-- The default repository created in
UGameplayTagValueSubsystem::Initialize:
`MakeShared<FMemoryTagValueRepository>(DefaultRepositoryName,
DefaultRepositoryPriority)`. -/
def defaultRepository : MemoryRepository :=
  { repositoryName := defaultRepositoryName
    priority := defaultRepositoryPriority
    tagValues := [] }

/-- UGameplayTagValueSubsystem::Initialize
(GameplayTagValueSubsystem.cpp, lines 70-80) on a fresh subsystem:
register the default repository.  (`RegisterConfiguredDataAssets` then
imports any `UGameplayTagValueDataAsset` objects resident in the engine;
in the embedding no such engine-managed assets exist.) -/
def Subsystem.initialState : Subsystem :=
  Subsystem.registerRepository ⟨[], []⟩ defaultRepository

/-!
Second snapshot of the value model: the tagged-struct family
`FBaseTagValue`/`FBoolTagValue`/… (TagValueBase.h), the container
`FTagValueContainer` (TagValueContainer.h) and its Blueprint function
library `UTagValueBlueprintLibrary` (TagValueBlueprintLibrary.cpp).
-/

/-- ETagValueType (TagValueTypes.h) — the system's own enumeration of
the value kinds it supports. -/
inductive ETagValueType where
  | boolT
  | intT
  | floatT
  | stringT
  | transformT
  | classT
  | objectT
deriving DecidableEq, Repr

/-- All seven members of `ETagValueType`. -/
def ETagValueType.all : List ETagValueType :=
  [.boolT, .intT, .floatT, .stringT, .transformT, .classT, .objectT]

/-- The `ETagValueType` member handled by each of the subsystem's typed
accessor pairs.  (This map has no string entry: the subsystem declares
no GetStringValue/SetStringValue, although
`UGameplayTagValueFunctionLibrary::GetStringTagValue` and
`SetStringTagValue` call exactly those names on it.) -/
def VKind.subsystemKindOf : VKind → ETagValueType
  | .boolKind => .boolT
  | .intKind => .intT
  | .floatKind => .floatT
  | .transformKind => .transformT
  | .classKind => .classT
  | .objectKind => .objectT

/-- Index of the seven derived structs of `FBaseTagValue`
(`FBoolTagValue` … `FStringTagValue`, TagValueBase.h). -/
inductive TagValueKind where
  | boolK
  | intK
  | floatK
  | stringK
  | transformK
  | classK
  | objectK
deriving DecidableEq, Repr

/-- The name `T::StaticValueType()` of each derived struct (TagValueBase.h). -/
def TagValueKind.staticValueType : TagValueKind → String
  | .boolK => "Bool"
  | .intK => "Int"
  | .floatK => "Float"
  | .stringK => "String"
  | .transformK => "Transform"
  | .classK => "Class"
  | .objectK => "Object"

/-- The `Value` field type of each derived struct (`FFloatTagValue`
holds a C++ `float`, the class/object structs hold soft pointers). -/
def TagValueKind.carrierB : TagValueKind → Type
  | .boolK => Bool
  | .intK => Int
  | .floatK => FloatVal
  | .stringK => String
  | .transformK => TransformVal
  | .classK => SoftClassPath
  | .objectK => SoftObjectPath

instance : (κ : TagValueKind) → DecidableEq κ.carrierB
  | .boolK => inferInstanceAs (DecidableEq Bool)
  | .intK => inferInstanceAs (DecidableEq Int)
  | .floatK => inferInstanceAs (DecidableEq FloatVal)
  | .stringK => inferInstanceAs (DecidableEq String)
  | .transformK => inferInstanceAs (DecidableEq TransformVal)
  | .classK => inferInstanceAs (DecidableEq SoftClassPath)
  | .objectK => inferInstanceAs (DecidableEq SoftObjectPath)

/-- The derived part of a concrete tag-value struct: which derived type
it is and its `Value` field. -/
inductive TagValuePayload where
  | boolP (v : Bool)
  | intP (v : Int)
  | floatP (v : FloatVal)
  | stringP (v : String)
  | transformP (v : TransformVal)
  | classP (v : SoftClassPath)
  | objectP (v : SoftObjectPath)
deriving DecidableEq, Repr

/-- The overridden `GetValueType()` of each derived struct. -/
def TagValuePayload.typeName : TagValuePayload → String
  | .boolP _ => "Bool"
  | .intP _ => "Int"
  | .floatP _ => "Float"
  | .stringP _ => "String"
  | .transformP _ => "Transform"
  | .classP _ => "Class"
  | .objectP _ => "Object"

/-- One element of the container's `TArray<FBaseTagValue> Values`.  The
array element type is the base struct `FBaseTagValue`, which holds only
the `Tag` field; copying a derived struct into the array keeps just that
base subobject (C++ object slicing), so a stored element is the tag plus
the derived part when one is present — for an element that was stored
through `Values.Add` the derived part is absent. -/
structure StoredTagValue where
  tag : GameplayTag
  derived : Option TagValuePayload
deriving DecidableEq, Repr

/-- The virtual `GetValueType()` of a stored element: the override of
its dynamic type, or `FBaseTagValue::GetValueType()` — `NAME_None` — for
a sliced element whose dynamic type is the base. -/
def StoredTagValue.getValueType (e : StoredTagValue) : String :=
  match e.derived with
  | none => "None"
  | some p => p.typeName

/-- FBaseTagValue::TryCast<T> (TagValueBase.h, lines 28-37):
`GetValueType() == T::StaticValueType()` followed by a
`static_cast<const T*>` read of the `Value` field.  In the embedding the
name check succeeds exactly when the derived part exists and is of the
requested kind, so the check-and-cast is a constructor match. -/
def StoredTagValue.tryCast (κ : TagValueKind) (e : StoredTagValue) :
    Option κ.carrierB :=
  match κ, e.derived with
  | .boolK, some (.boolP v) => some v
  | .intK, some (.intP v) => some v
  | .floatK, some (.floatP v) => some v
  | .stringK, some (.stringP v) => some v
  | .transformK, some (.transformP v) => some v
  | .classK, some (.classP v) => some v
  | .objectK, some (.objectP v) => some v
  | _, _ => none

/-- FTagValueContainer (TagValueContainer.h): an array of tag-value
pairs. -/
structure FTagValueContainer where
  values : List StoredTagValue
deriving DecidableEq, Repr

/-- FTagValueContainer::RemoveValue (TagValueContainer.h, lines 87-98):
remove the first entry with the tag, reporting whether one was found. -/
def removeFirstTagged : List StoredTagValue → GameplayTag →
    Bool × List StoredTagValue
  | [], _ => (false, [])
  | e :: rest, tag =>
    if e.tag = tag then (true, rest)
    else
      let (found, rest2) := removeFirstTagged rest tag
      (found, e :: rest2)

/-- FTagValueContainer::RemoveValue. -/
def FTagValueContainer.removeValue (c : FTagValueContainer) (tag : GameplayTag) :
    Bool × FTagValueContainer :=
  let (found, rest) := removeFirstTagged c.values tag
  (found, ⟨rest⟩)

/-- FTagValueContainer::SetValue<T> (TagValueContainer.h, lines 30-40):
remove any existing value with the tag, construct the derived struct
`T NewValue(Value)` with `NewValue.Tag = Tag`, and `Values.Add(NewValue)`.
`Values` is a `TArray<FBaseTagValue>`, so `Add` copy-constructs only the
`FBaseTagValue` base subobject of `NewValue` (C++ object slicing): the
element that lands in the array carries the tag but no derived part, and
its dynamic type is `FBaseTagValue`. -/
def FTagValueContainer.setValue (κ : TagValueKind) (c : FTagValueContainer)
    (tag : GameplayTag) (value : κ.carrierB) : FTagValueContainer :=
  let c1 := (c.removeValue tag).2
  ⟨c1.values ++ [{ tag := tag, derived := none }]⟩

/-- FTagValueContainer::GetValue<T> (TagValueContainer.h, lines 48-63):
scan for an entry with the tag whose `TryCast<T>` succeeds, yielding its
`Value`. -/
def FTagValueContainer.getValue (κ : TagValueKind) (c : FTagValueContainer)
    (tag : GameplayTag) : Option κ.carrierB :=
  c.values.findSome? fun e => if e.tag = tag then e.tryCast κ else none

/-- FTagValueContainer::HasValue. -/
def FTagValueContainer.hasValue (c : FTagValueContainer) (tag : GameplayTag) :
    Bool :=
  c.values.any fun e => decide (e.tag = tag)

/-- FTagValueContainer::Clear. -/
def FTagValueContainer.clear (c : FTagValueContainer) : FTagValueContainer :=
  ⟨[]⟩

/-- FTagValueContainer::Num. -/
def FTagValueContainer.num (c : FTagValueContainer) : Int :=
  c.values.length

/-- The UTagValueBlueprintLibrary setters
(`SetBoolValue` … `SetObjectValue`, TagValueBlueprintLibrary.cpp),
uniformly over the kind: `Container.SetValue<T>(Tag, T(Value))`. -/
def setValueBP (κ : TagValueKind) (container : FTagValueContainer)
    (tag : GameplayTag) (value : κ.carrierB) : FTagValueContainer :=
  container.setValue κ tag value

/-- The UTagValueBlueprintLibrary getters
(`GetBoolValue` … `GetObjectValue`, TagValueBlueprintLibrary.cpp),
uniformly over the kind: `Success = Container.GetValue<T>(Tag, Typed)`,
returning `Typed.Value` on success and `DefaultValue` otherwise,
together with the `Success` out-parameter. -/
def getValueBP (κ : TagValueKind) (container : FTagValueContainer)
    (tag : GameplayTag) (defaultValue : κ.carrierB) : κ.carrierB × Bool :=
  match container.getValue κ tag with
  | some v => (v, true)
  | none => (defaultValue, false)

/-!
Spec-side definitions.  These are written from the specification's words
(spec §9, «Resolution algorithm»), to be compared with the embedding of
the source above.
-/

/-- Whether the optional per-call context object claims to hold the
queried tag (the spec's «override/context object if it claims to hold
the exact tag»). -/
def contextClaimsTag (context : Option TagValueContext) (tag : GameplayTag) :
    Bool :=
  match context with
  | some c => c.hasTagValue tag
  | none => false

/-- The source of a resolution hit: the per-call context object, or a
value found in some repository. -/
inductive SpecHit where
  | contextHit
  | repositoryHit (value : Holder)
deriving DecidableEq, Repr

/-- Modelled from the spec (§9): «query order is (1) optional per-call
override/context object if it claims to hold the exact tag, (2) each
repository in priority order for an exact tag match, (3) repeat step (2)
for each ancestor tag from nearest to furthest, returning the first
hit».  The repositories are traversed in stored order, which is priority
order for a subsystem whose repository array is priority-sorted. -/
def specFirstHit (s : Subsystem) (context : Option TagValueContext)
    (tag : GameplayTag) : Option SpecHit :=
  if contextClaimsTag context tag then some SpecHit.contextHit
  else
    (tag :: ancestorChain tag).findSome? fun level =>
      s.repositories.findSome? fun r =>
        if r.hasValue level then (r.getValue level).map SpecHit.repositoryHit
        else none

/-- The value a typed get should produce according to the spec's
resolution order: the context object's value when the context is the
first hit; the held value of the first repository hit, read at the
requested kind (a hit holding another kind contributes no value of the
requested kind); the caller-supplied default when nothing matches. -/
def specResolveTyped (κ : VKind) (s : Subsystem) (context : Option TagValueContext)
    (tag : GameplayTag) (defaultValue : κ.carrier) : κ.carrier :=
  match specFirstHit s context tag with
  | some SpecHit.contextHit =>
    match context with
    | some c => c.getTyped κ tag defaultValue
    | none => defaultValue
  | some (SpecHit.repositoryHit v) => (v.decode κ).getD defaultValue
  | none => defaultValue

/-- The repository array is sorted by priority, highest first. -/
def ReposSortedByPriority (s : Subsystem) : Prop :=
  s.repositories.Pairwise repoOrder

instance (s : Subsystem) : Decidable (ReposSortedByPriority s) :=
  inferInstanceAs (Decidable (s.repositories.Pairwise repoOrder))

/-- The subsystem holds at most one repository per name. -/
def RepositoryNamesUnique (s : Subsystem) : Prop :=
  (s.repositories.map (·.repositoryName)).Nodup

instance (s : Subsystem) : Decidable (RepositoryNamesUnique s) := by
  unfold RepositoryNamesUnique
  infer_instance

/-- The container holds at most one value per tag. -/
def OneValuePerTag (c : FTagValueContainer) : Prop :=
  c.values.Pairwise fun a b => a.tag ≠ b.tag

instance (c : FTagValueContainer) : Decidable (OneValuePerTag c) := by
  unfold OneValuePerTag
  infer_instance

/-- Every stored element of the container is a sliced `FBaseTagValue`
with no derived part — the shape of every element the container code can
ever store (see `FTagValueContainer.setValue`). -/
def SlicedContainer (c : FTagValueContainer) : Prop :=
  ∀ e ∈ c.values, e.derived = none

instance (c : FTagValueContainer) : Decidable (SlicedContainer c) :=
  inferInstanceAs (Decidable (∀ e ∈ c.values, e.derived = none))

/-!
Concrete fixtures, used to instantiate the theorems below at specific
inputs.
-/

/-- A registered repository of priority 10 holding a value at `a.b`. -/
def repoA : MemoryRepository :=
  { repositoryName := "A"
    priority := 10
    tagValues := [(⟨["a", "b"]⟩, Holder.intV 7)] }

/-- A registered repository of priority 5 holding values at `a` and
`a.b.c`. -/
def repoB : MemoryRepository :=
  { repositoryName := "B"
    priority := 5
    tagValues := [(⟨["a"]⟩, Holder.boolV true), (⟨["a", "b", "c"]⟩, Holder.intV 9)] }

/-- A subsystem with the two fixture repositories, priority-sorted. -/
def sWitness : Subsystem :=
  { repositories := [repoA, repoB]
    onTagValueChanged := [] }

/-- A context object that claims every tag and serves fixed values. -/
def ctxWitness : TagValueContext :=
  { hasTagValue := fun _ => true
    getBoolValue := fun _ _ => true
    getIntValue := fun _ _ => 42
    getFloatValue := fun _ d => d
    getTransformValue := fun _ d => d
    getClassValue := fun _ d => d
    getObjectValue := fun _ d => d }

/-- A one-repository subsystem storing an int holder at `a`. -/
def sInt5 : Subsystem :=
  { repositories := [{ repositoryName := "R", priority := 0,
                       tagValues := [(⟨["a"]⟩, Holder.intV 5)] }]
    onTagValueChanged := [] }

/-- Like `sInt5` but storing a bool holder at `a`. -/
def sBoolTrue : Subsystem :=
  { repositories := [{ repositoryName := "R", priority := 0,
                       tagValues := [(⟨["a"]⟩, Holder.boolV true)] }]
    onTagValueChanged := [] }

/-- A replacement repository carrying the same name as `repoA` but a
different priority. -/
def repoA2 : MemoryRepository :=
  { repositoryName := "A"
    priority := 20
    tagValues := [] }

/-!
Helper lemmas.
-/

theorem getRawValue_eq_findInHierarchy (s : Subsystem) (tag : GameplayTag)
    (context : Option TagValueContext) :
    s.getRawValue tag context
      = findInHierarchy s.repositories (tag :: ancestorChain tag) := by
  simp only [Subsystem.getRawValue, findInHierarchy]

theorem repoSweep_eq_findExactValue (repos : List MemoryRepository)
    (level : GameplayTag) :
    (repos.findSome? fun r =>
        if r.hasValue level then (r.getValue level).map SpecHit.repositoryHit
        else none)
      = (findExactValue repos level).map SpecHit.repositoryHit := by
  induction repos with
  | nil => rfl
  | cons r rest ih =>
    by_cases hr : r.hasValue level
    · have hsome : (r.getValue level).isSome := hr
      obtain ⟨v, hv⟩ := Option.isSome_iff_exists.mp hsome
      simp [List.findSome?_cons, findExactValue, hr, hv]
    · simp [List.findSome?_cons, findExactValue, hr, ih]

theorem findSome?_map_option {α β γ : Type} (f : β → γ) (h : α → Option β) :
    ∀ levels : List α,
      (levels.findSome? fun a => (h a).map f) = (levels.findSome? h).map f := by
  intro levels
  induction levels with
  | nil => rfl
  | cons a rest ih =>
    cases hv : h a <;> simp [List.findSome?_cons, hv, ih]

theorem findInHierarchy_eq_findSome? (repos : List MemoryRepository) :
    ∀ levels : List GameplayTag,
      findInHierarchy repos levels = levels.findSome? (findExactValue repos) := by
  intro levels
  induction levels with
  | nil => rfl
  | cons level rest ih =>
    cases hv : findExactValue repos level <;>
      simp [findInHierarchy, List.findSome?_cons, hv, ih]

theorem typed_repos_branch (κ : VKind) (s : Subsystem) (tag : GameplayTag)
    (d dc : κ.carrier) :
    (match tryGetValueFromRepositories κ s tag with
     | some v => v
     | none => d)
      = (match ((tag :: ancestorChain tag).findSome? fun level =>
            s.repositories.findSome? fun r =>
              if r.hasValue level then
                (r.getValue level).map SpecHit.repositoryHit
              else none) with
         | some SpecHit.contextHit => dc
         | some (SpecHit.repositoryHit v) => (v.decode κ).getD d
         | none => d) := by
  simp only [repoSweep_eq_findExactValue, findSome?_map_option,
    ← findInHierarchy_eq_findSome?]
  unfold tryGetValueFromRepositories
  rw [getRawValue_eq_findInHierarchy]
  cases hfi : findInHierarchy s.repositories (tag :: ancestorChain tag) with
  | none => simp
  | some h =>
    simp only [Option.map_some]
    cases hd : h.decode κ <;> simp [hd]

/-- C1: for every typed get (GetBoolValue, GetIntValue, GetFloatValue,
GetTransformValue, GetClassValue, GetObjectValue — i.e. GetTypedValue at
each of the six accessor kinds) on a priority-sorted subsystem with a
valid tag, the result is exactly what the spec's resolution order
prescribes: (1) the per-call context object if it claims to hold the
exact tag, (2) each repository in priority order for an exact match,
(3) the same sweep for each ancestor from nearest to furthest; the first
hit is returned (read at the requested kind) and a miss yields the
caller-supplied default. -/
theorem c1_typed_get_resolution_order (κ : VKind) (s : Subsystem)
    (context : Option TagValueContext) (tag : GameplayTag)
    (defaultValue : κ.carrier)
    (hvalid : tag.isValid = true) (hsorted : ReposSortedByPriority s) :
    s.getTypedValue κ tag defaultValue context
      = specResolveTyped κ s context tag defaultValue := by
  unfold Subsystem.getTypedValue specResolveTyped specFirstHit
  cases context with
  | none =>
    simp only [hvalid, Bool.not_true, Bool.false_eq_true, if_false,
      tryGetValueFromContext, contextClaimsTag]
    simpa using typed_repos_branch κ s tag defaultValue defaultValue
  | some c =>
    cases hc : c.hasTagValue tag with
    | true =>
      simp [hvalid, tryGetValueFromContext, contextClaimsTag, hc]
    | false =>
      simp only [hvalid, Bool.not_true, Bool.false_eq_true, if_false,
        tryGetValueFromContext, contextClaimsTag, hc]
      simpa using
        typed_repos_branch κ s tag defaultValue (c.getTyped κ tag defaultValue)

/-- Witness for C1: the resolution-order theorem instantiated at the
two-repository fixture, an ancestor lookup for `a.b.c` at the int kind. -/
theorem c1_typed_get_resolution_order_witness :
    Subsystem.getTypedValue VKind.intKind sWitness ⟨["a", "b", "c"]⟩
        (show VKind.intKind.carrier from (0 : Int)) none
      = specResolveTyped VKind.intKind sWitness none ⟨["a", "b", "c"]⟩
        (show VKind.intKind.carrier from (0 : Int)) :=
  c1_typed_get_resolution_order VKind.intKind sWitness none ⟨["a", "b", "c"]⟩
    (show VKind.intKind.carrier from (0 : Int)) (by decide) (by decide)

theorem findExactValue_none (repos : List MemoryRepository) (tag : GameplayTag)
    (h : ∀ r ∈ repos, r.hasValue tag = false) :
    findExactValue repos tag = none := by
  induction repos with
  | nil => rfl
  | cons r rest ih =>
    have hr := h r (List.mem_cons_self r rest)
    simp only [findExactValue, hr, Bool.false_eq_true, if_false]
    exact ih fun x hx => h x (List.mem_cons_of_mem r hx)

theorem findExactValue_first (tag : GameplayTag) :
    ∀ repos : List MemoryRepository,
      (∃ r ∈ repos, r.hasValue tag = true) →
      ∃ r ∈ repos, r.hasValue tag = true
        ∧ findExactValue repos tag = r.getValue tag := by
  intro repos
  induction repos with
  | nil => intro hex; simp at hex
  | cons r rest ih =>
    intro hex
    by_cases hr : r.hasValue tag = true
    · exact ⟨r, List.mem_cons_self r rest, hr, by simp [findExactValue, hr]⟩
    · have hex2 : ∃ x ∈ rest, x.hasValue tag = true := by
        rcases hex with ⟨x, hx, hhx⟩
        rcases List.mem_cons.mp hx with h | h
        · exact absurd (h ▸ hhx) hr
        · exact ⟨x, h, hhx⟩
      obtain ⟨x, hx, hhx, heq⟩ := ih hex2
      exact ⟨x, List.mem_cons_of_mem r hx, hhx, by simp [findExactValue, hr, heq]⟩

theorem findExactValue_spec (tag : GameplayTag) :
    ∀ repos : List MemoryRepository, repos.Pairwise repoOrder →
      (∃ r ∈ repos, r.hasValue tag = true) →
      ∃ r ∈ repos, r.hasValue tag = true
        ∧ findExactValue repos tag = r.getValue tag
        ∧ ∀ r2 ∈ repos, r2.hasValue tag = true → r2.priority ≤ r.priority := by
  intro repos
  induction repos with
  | nil => intro _ hex; simp at hex
  | cons r rest ih =>
    intro hpw hex
    by_cases hr : r.hasValue tag = true
    · refine ⟨r, List.mem_cons_self r rest, hr, by simp [findExactValue, hr], ?_⟩
      intro r2 hr2 _
      rcases List.mem_cons.mp hr2 with h | h
      · exact h ▸ le_refl _
      · exact (List.pairwise_cons.mp hpw).1 r2 h
    · have hex2 : ∃ x ∈ rest, x.hasValue tag = true := by
        rcases hex with ⟨x, hx, hhx⟩
        rcases List.mem_cons.mp hx with h | h
        · exact absurd (h ▸ hhx) hr
        · exact ⟨x, h, hhx⟩
      obtain ⟨x, hx, hhx, heq, hmax⟩ := ih (List.pairwise_cons.mp hpw).2 hex2
      refine ⟨x, List.mem_cons_of_mem r hx, hhx,
        by simp [findExactValue, hr, heq], ?_⟩
      intro r2 hr2 hh2
      rcases List.mem_cons.mp hr2 with h | h
      · exact absurd (h ▸ hh2) hr
      · exact hmax r2 h hh2

/-- C2: whenever some registered repository holds a value for the exact
queried tag, GetRawValue on a priority-sorted subsystem returns the
value of a repository that holds the exact tag and whose priority is
maximal among all repositories holding it — so no ancestor-tag value is
returned, and an exact match in a low-priority repository beats any
ancestor match in a higher-priority one. -/
theorem c2_exact_match_priority_wins (s : Subsystem) (tag : GameplayTag)
    (context : Option TagValueContext)
    (hsorted : ReposSortedByPriority s)
    (hex : ∃ r ∈ s.repositories, r.hasValue tag = true) :
    ∃ r ∈ s.repositories, r.hasValue tag = true
      ∧ s.getRawValue tag context = r.getValue tag
      ∧ ∀ r2 ∈ s.repositories, r2.hasValue tag = true →
          r2.priority ≤ r.priority := by
  obtain ⟨r, hr, hhas, heq, hmax⟩ := findExactValue_spec tag s.repositories hsorted hex
  refine ⟨r, hr, hhas, ?_, hmax⟩
  have hsome : (r.getValue tag).isSome := hhas
  obtain ⟨v, hv⟩ := Option.isSome_iff_exists.mp hsome
  simp [Subsystem.getRawValue, heq, hv]

/-- Witness for C2: the exact value at `a.b.c` in the low-priority
repository B wins over the ancestor value at `a.b` in the
higher-priority repository A. -/
theorem c2_exact_match_priority_wins_witness :
    ∃ r ∈ sWitness.repositories, r.hasValue ⟨["a", "b", "c"]⟩ = true
      ∧ Subsystem.getRawValue sWitness ⟨["a", "b", "c"]⟩ none
          = r.getValue ⟨["a", "b", "c"]⟩
      ∧ ∀ r2 ∈ sWitness.repositories, r2.hasValue ⟨["a", "b", "c"]⟩ = true →
          r2.priority ≤ r.priority :=
  c2_exact_match_priority_wins sWitness ⟨["a", "b", "c"]⟩ none
    (by decide) (by decide)

theorem findInHierarchy_of_find? (repos : List MemoryRepository) :
    ∀ (levels : List GameplayTag) (a : GameplayTag),
      levels.find? (fun L => repos.any fun r => r.hasValue L) = some a →
      findInHierarchy repos levels = findExactValue repos a := by
  intro levels
  induction levels with
  | nil => intro a h; simp at h
  | cons L rest ih =>
    intro a h
    by_cases hL : (repos.any fun r => r.hasValue L) = true
    · have ha : L = a := by
        have := List.find?_cons_of_pos (p := fun L => repos.any fun r => r.hasValue L)
          rest hL
        rw [this] at h
        exact Option.some_inj.mp h
      subst ha
      have hex : ∃ r ∈ repos, r.hasValue L = true := by
        simpa [List.any_eq_true] using hL
      obtain ⟨r, _, hhas, heq⟩ := findExactValue_first L repos hex
      have hsome : (r.getValue L).isSome := hhas
      obtain ⟨v, hv⟩ := Option.isSome_iff_exists.mp hsome
      simp [findInHierarchy, heq, hv]
    · have hnone : findExactValue repos L = none := by
        apply findExactValue_none
        intro r hr
        by_contra hcon
        exact hL (List.any_eq_true.mpr ⟨r, hr, by simpa using hcon⟩)
      have hrest : rest.find? (fun L => repos.any fun r => r.hasValue L) = some a := by
        have := List.find?_cons_of_neg (p := fun L => repos.any fun r => r.hasValue L)
          rest hL
        rw [this] at h
        exact h
      simp [findInHierarchy, hnone, ih a hrest]

/-- C4: when no registered repository holds the exact queried tag but
some ancestor level does, GetRawValue returns the value a repository
holds at the nearest such ancestor (`a` being the first level of the
nearest-to-furthest ancestor chain at which any repository has a value),
and HasTagValue reports true: a value set on `a.b` is inherited by a
query for `a.b.c` unless `a.b.c` itself has a value. -/
theorem c4_ancestor_inheritance (s : Subsystem) (tag a : GameplayTag)
    (hnoexact : ∀ r ∈ s.repositories, r.hasValue tag = false)
    (hfound : (ancestorChain tag).find?
        (fun L => s.repositories.any fun r => r.hasValue L) = some a) :
    (∃ r ∈ s.repositories, r.hasValue a = true
        ∧ s.getRawValue tag none = r.getValue a)
      ∧ s.hasTagValue tag none = true := by
  have hnone : findExactValue s.repositories tag = none :=
    findExactValue_none s.repositories tag hnoexact
  have hchain : findInHierarchy s.repositories (ancestorChain tag)
      = findExactValue s.repositories a :=
    findInHierarchy_of_find? s.repositories (ancestorChain tag) a hfound
  have hpa : (s.repositories.any fun r => r.hasValue a) = true :=
    List.find?_some (p := fun L => s.repositories.any fun r => r.hasValue L) hfound
  have hmem : a ∈ ancestorChain tag := List.mem_of_find?_eq_some hfound
  have hex : ∃ r ∈ s.repositories, r.hasValue a = true := by
    simpa [List.any_eq_true] using hpa
  obtain ⟨r, hr, hhas, heq⟩ := findExactValue_first a s.repositories hex
  constructor
  · refine ⟨r, hr, hhas, ?_⟩
    simp [Subsystem.getRawValue, hnone, hchain, heq]
  · have hany : ((ancestorChain tag).any fun L =>
        s.repositories.any fun r => r.hasValue L) = true :=
      List.any_eq_true.mpr ⟨a, hmem, hpa⟩
    simp [Subsystem.hasTagValue, hany]

/-- Witness for C4: no repository holds `a.b.q`, so the query inherits
the value stored for the nearest ancestor `a.b` in repository A. -/
theorem c4_ancestor_inheritance_witness :
    (∃ r ∈ sWitness.repositories, r.hasValue ⟨["a", "b"]⟩ = true
        ∧ Subsystem.getRawValue sWitness ⟨["a", "b", "q"]⟩ none
            = r.getValue ⟨["a", "b"]⟩)
      ∧ Subsystem.hasTagValue sWitness ⟨["a", "b", "q"]⟩ none = true :=
  c4_ancestor_inheritance sWitness ⟨["a", "b", "q"]⟩ ⟨["a", "b"]⟩
    (by decide) (by decide)

/-- Counterexample for C3: the claim says every get — the typed getters
and GetRawValue — with a context that implements the interface and holds
the queried tag returns the context object's value regardless of what
any repository stores.  `ctxWitness` claims the tag `a`, yet GetRawValue
returns whatever the repository stores there: an int holder 5 on one
state and a bool holder on another, two different results under the very
same context — so the result is the repository's value, not the
context's.  (GetRawValue's context branch is an empty block in the
source.) -/
theorem c3_context_precedence_counterexample :
    ctxWitness.hasTagValue ⟨["a"]⟩ = true
    ∧ Subsystem.getRawValue sInt5 ⟨["a"]⟩ (some ctxWitness)
        = some (Holder.intV 5)
    ∧ Subsystem.getRawValue sBoolTrue ⟨["a"]⟩ (some ctxWitness)
        = some (Holder.boolV true)
    ∧ Subsystem.getRawValue sInt5 ⟨["a"]⟩ (some ctxWitness)
        ≠ Subsystem.getRawValue sBoolTrue ⟨["a"]⟩ (some ctxWitness) := by
  exact ⟨by decide, by decide, by decide, by decide⟩

/-- C3 (amended): the per-object context takes precedence over all
repositories for the typed getters — with a valid tag and a context that
implements the interface and claims the tag, the typed getter returns
the context object's value whatever any repository stores — while
GetRawValue ignores its Context parameter entirely (its context branch
is empty) and resolves from the repositories alone. -/
theorem c3_context_precedence_amended (κ : VKind) (s : Subsystem)
    (c : TagValueContext) (context : Option TagValueContext)
    (tag : GameplayTag) (defaultValue : κ.carrier)
    (hvalid : tag.isValid = true) (hclaims : c.hasTagValue tag = true) :
    s.getTypedValue κ tag defaultValue (some c) = c.getTyped κ tag defaultValue
    ∧ s.getRawValue tag context = s.getRawValue tag none := by
  constructor
  · simp [Subsystem.getTypedValue, hvalid, tryGetValueFromContext, hclaims]
  · rfl

/-- Witness for the amended C3 at the bool kind on `sInt5`: the context
claims `a`, so the typed getter returns the context's bool value even
though the repository stores an int holder there. -/
theorem c3_context_precedence_amended_witness :
    Subsystem.getTypedValue VKind.boolKind sInt5 ⟨["a"]⟩
        (show VKind.boolKind.carrier from false) (some ctxWitness)
      = ctxWitness.getTyped VKind.boolKind ⟨["a"]⟩
        (show VKind.boolKind.carrier from false)
    ∧ Subsystem.getRawValue sInt5 ⟨["a"]⟩ (some ctxWitness)
        = Subsystem.getRawValue sInt5 ⟨["a"]⟩ none :=
  c3_context_precedence_amended VKind.boolKind sInt5 ctxWitness
    (some ctxWitness) ⟨["a"]⟩ (show VKind.boolKind.carrier from false)
    (by decide) (by decide)

/-- C5 does not hold of the code: SetRawValue (hence every typed
setter), RemoveTagValue and ClearAllValues leave the OnTagValueChanged
invocation history untouched — the source never broadcasts the delegate
(BroadcastTagValueChanged is declared in the header but has no
definition and no call site), although the delegate's own documentation
says it is «triggered when a tag value changes (set, removed, or
cleared)». -/
theorem c5_no_change_notification (s : Subsystem) (tag : GameplayTag)
    (value : Option Holder) (repositoryName : Option String) :
    ((s.setRawValue tag value repositoryName).2).onTagValueChanged
        = s.onTagValueChanged
    ∧ ((s.removeTagValue tag repositoryName).2).onTagValueChanged
        = s.onTagValueChanged
    ∧ (s.clearAllValues repositoryName).onTagValueChanged
        = s.onTagValueChanged := by
  refine ⟨?_, ?_, ?_⟩
  · unfold Subsystem.setRawValue
    split
    · rfl
    · split <;> rfl
  · unfold Subsystem.removeTagValue
    split
    · rfl
    · split
      · split
        · split <;> rfl
        · rfl
      · rfl
  · unfold Subsystem.clearAllValues
    split <;> rfl

/-- C6: on a subsystem whose repository collection is priority-sorted
with pairwise-distinct names, RegisterRepository leaves it priority-
sorted (highest first) with distinct names and with the multiset of
repositories being the new repository plus the old ones of other names
(same-name registration replaces), and UnregisterRepository leaves it
priority-sorted with distinct names. -/
theorem c6_register_sorted_unique (s : Subsystem) (repo : MemoryRepository)
    (name : String)
    (hsorted : ReposSortedByPriority s) (hnames : RepositoryNamesUnique s) :
    ReposSortedByPriority (s.registerRepository repo)
    ∧ RepositoryNamesUnique (s.registerRepository repo)
    ∧ List.Perm (s.registerRepository repo).repositories
        (repo :: s.repositories.filter
          fun r => !decide (r.repositoryName = repo.repositoryName))
    ∧ ReposSortedByPriority (s.unregisterRepository name)
    ∧ RepositoryNamesUnique (s.unregisterRepository name) := by
  have hfs : List.Sublist
      (s.repositories.filter
        fun r => !decide (r.repositoryName = repo.repositoryName))
      s.repositories := List.filter_sublist s.repositories
  have hperm : List.Perm (s.registerRepository repo).repositories
      ((s.repositories.filter
          fun r => !decide (r.repositoryName = repo.repositoryName))
        ++ [repo]) :=
    List.perm_insertionSort repoOrder _
  have hperm2 : List.Perm (s.registerRepository repo).repositories
      (repo :: s.repositories.filter
        fun r => !decide (r.repositoryName = repo.repositoryName)) :=
    hperm.trans (List.perm_append_singleton repo _)
  refine ⟨?_, ?_, hperm2, ?_, ?_⟩
  · exact List.sorted_insertionSort repoOrder _
  · have hnodup : ((repo :: s.repositories.filter
        fun r => !decide (r.repositoryName = repo.repositoryName)).map
          fun r => r.repositoryName).Nodup := by
      refine List.nodup_cons.mpr ⟨?_, ?_⟩
      · intro hmem
        obtain ⟨r, hr, hrn⟩ := List.mem_map.mp hmem
        have := (List.mem_filter.mp hr).2
        simp only [Bool.not_eq_eq_eq_not, Bool.not_true, decide_eq_false_iff_not] at this
        exact this (by simpa using hrn)
      · exact List.Nodup.sublist (hfs.map _) hnames
    exact ((hperm2.map fun r => r.repositoryName).nodup_iff).mpr hnodup
  · exact List.Pairwise.sublist (List.filter_sublist s.repositories) hsorted
  · exact List.Nodup.sublist ((List.filter_sublist s.repositories).map _) hnames

/-- Witness for C6: re-registering name `A` at priority 20 on the
two-repository fixture replaces the old `A` and keeps the collection
sorted and name-unique, as does unregistering `B`. -/
theorem c6_register_sorted_unique_witness :
    ReposSortedByPriority (sWitness.registerRepository repoA2)
    ∧ RepositoryNamesUnique (sWitness.registerRepository repoA2)
    ∧ List.Perm (sWitness.registerRepository repoA2).repositories
        (repoA2 :: sWitness.repositories.filter
          fun r => !decide (r.repositoryName = repoA2.repositoryName))
    ∧ ReposSortedByPriority (sWitness.unregisterRepository "B")
    ∧ RepositoryNamesUnique (sWitness.unregisterRepository "B") :=
  c6_register_sorted_unique sWitness repoA2 "B" (by decide) (by decide)

/-- C7 does not hold of the code: the typed accessor pairs the runtime
subsystem exposes cover exactly six of the seven `ETagValueType` kinds —
bool, int, float, transform, class and object — and none covers the
string kind: the subsystem declares no GetStringValue/SetStringValue
(even though the function library's GetStringTagValue/SetStringTagValue
call precisely those names on it). -/
theorem c7_subsystem_exposes_six_kinds :
    VKind.all.map VKind.subsystemKindOf
      = [ETagValueType.boolT, ETagValueType.intT, ETagValueType.floatT,
         ETagValueType.transformT, ETagValueType.classT, ETagValueType.objectT]
    ∧ ETagValueType.stringT ∉ VKind.all.map VKind.subsystemKindOf
    ∧ ETagValueType.all.length = 7 := by
  exact ⟨by decide, by decide, by decide⟩

theorem removeFirstTagged_sublist (tag : GameplayTag) :
    ∀ l : List StoredTagValue, List.Sublist (removeFirstTagged l tag).2 l := by
  intro l
  induction l with
  | nil => exact List.Sublist.refl []
  | cons e rest ih =>
    by_cases he : e.tag = tag
    · simp only [removeFirstTagged, he, if_true]
      exact List.sublist_cons_self e rest
    · simp only [removeFirstTagged, he, if_false]
      cases h : removeFirstTagged rest tag with
      | mk found rest2 =>
        have : List.Sublist rest2 rest := by
          have := ih
          rw [h] at this
          exact this
        exact this.cons₂ e

theorem tryCast_of_sliced (κ : TagValueKind) (e : StoredTagValue)
    (h : e.derived = none) : e.tryCast κ = none := by
  cases κ <;> simp [StoredTagValue.tryCast, h]

theorem getValue_none_of_sliced (κ : TagValueKind) (c : FTagValueContainer)
    (tag : GameplayTag) (h : SlicedContainer c) :
    c.getValue κ tag = none := by
  unfold FTagValueContainer.getValue
  rw [List.findSome?_eq_none_iff]
  intro e he
  rcases Decidable.em (e.tag = tag) with ht | ht
  · simp [ht, tryCast_of_sliced κ e (h e he)]
  · simp [ht]

/-- C8 does not hold of the code: storing a value through a blueprint
setter slices it — `Values.Add` copies only the `FBaseTagValue` base of
the typed struct into the `TArray<FBaseTagValue>` — so the stored
element's `GetValueType()` is `NAME_None`, `TryCast` never succeeds, and
the matching getter returns the caller default with Success = false (on
any container whose elements were stored that way). -/
theorem c8_container_get_after_set_returns_default (κ : TagValueKind)
    (c : FTagValueContainer) (tag : GameplayTag) (value : κ.carrierB)
    (defaultValue : κ.carrierB) (hsliced : SlicedContainer c) :
    getValueBP κ (setValueBP κ c tag value) tag defaultValue
      = (defaultValue, false) := by
  have hset : SlicedContainer (setValueBP κ c tag value) := by
    intro e he
    unfold setValueBP FTagValueContainer.setValue FTagValueContainer.removeValue at he
    rcases List.mem_append.mp he with hmem | hmem
    · exact hsliced e ((removeFirstTagged_sublist tag c.values).mem hmem)
    · rcases List.mem_singleton.mp hmem with rfl
      rfl
  unfold getValueBP
  rw [getValue_none_of_sliced κ _ tag hset]

/-- Witness for C8 at the bool kind: SetBoolValue on the empty container
at tag `a` followed by GetBoolValue at `a` yields the default `false`
with Success = false. -/
theorem c8_container_get_after_set_returns_default_witness :
    getValueBP TagValueKind.boolK
        (setValueBP TagValueKind.boolK ⟨[]⟩ ⟨["a"]⟩
          (show TagValueKind.boolK.carrierB from true))
        ⟨["a"]⟩ (show TagValueKind.boolK.carrierB from false)
      = (show TagValueKind.boolK.carrierB from false, false) :=
  c8_container_get_after_set_returns_default TagValueKind.boolK ⟨[]⟩ ⟨["a"]⟩
    (show TagValueKind.boolK.carrierB from true)
    (show TagValueKind.boolK.carrierB from false) (by decide)

theorem removeFirstTagged_no_tag (tag : GameplayTag) :
    ∀ l : List StoredTagValue, l.Pairwise (fun a b => a.tag ≠ b.tag) →
      ∀ e ∈ (removeFirstTagged l tag).2, e.tag ≠ tag := by
  intro l
  induction l with
  | nil => intro _ e he; simp [removeFirstTagged] at he
  | cons x rest ih =>
    intro hpw e he
    have hhead := (List.pairwise_cons.mp hpw).1
    have htail := (List.pairwise_cons.mp hpw).2
    by_cases hx : x.tag = tag
    · simp only [removeFirstTagged, hx, if_true] at he
      intro hcon
      exact hhead e he (hx ▸ hcon ▸ rfl)
    · simp only [removeFirstTagged, hx, if_false] at he
      cases h : removeFirstTagged rest tag with
      | mk found rest2 =>
        rw [h] at he
        rcases List.mem_cons.mp he with rfl | hmem
        · exact hx
        · have := ih htail e
          rw [h] at this
          exact this hmem

/-- C9: on a container holding at most one value per tag, SetValue,
RemoveValue and Clear preserve that invariant, and after SetValue the
tag has exactly one stored entry — a second entry is never added for a
tag that already had one. -/
theorem c9_container_one_value_per_tag (κ : TagValueKind)
    (c : FTagValueContainer) (tag : GameplayTag) (value : κ.carrierB)
    (h : OneValuePerTag c) :
    OneValuePerTag (c.setValue κ tag value)
    ∧ OneValuePerTag (c.removeValue tag).2
    ∧ OneValuePerTag c.clear
    ∧ ((c.setValue κ tag value).values.filter
        fun e => decide (e.tag = tag)).length = 1 := by
  have hsub := removeFirstTagged_sublist tag c.values
  have hrestpw : (removeFirstTagged c.values tag).2.Pairwise
      (fun a b => a.tag ≠ b.tag) := List.Pairwise.sublist hsub h
  have hnotag := removeFirstTagged_no_tag tag c.values h
  refine ⟨?_, hrestpw, List.Pairwise.nil, ?_⟩
  · unfold FTagValueContainer.setValue FTagValueContainer.removeValue
    refine List.pairwise_append.mpr ⟨hrestpw, List.pairwise_singleton _ _, ?_⟩
    intro a ha b hb
    rcases List.mem_singleton.mp hb with rfl
    exact hnotag a ha
  · unfold FTagValueContainer.setValue FTagValueContainer.removeValue
    rw [List.filter_append]
    have hnil : (removeFirstTagged c.values tag).2.filter
        (fun e => decide (e.tag = tag)) = [] := by
      rw [List.filter_eq_nil_iff]
      intro e he
      simpa using hnotag e he
    simp [hnil]

/-- Witness for C9 at the int kind on a one-entry container. -/
theorem c9_container_one_value_per_tag_witness :
    OneValuePerTag (FTagValueContainer.setValue TagValueKind.intK
        ⟨[{ tag := ⟨["x"]⟩, derived := none }]⟩ ⟨["a"]⟩
        (show TagValueKind.intK.carrierB from (3 : Int)))
    ∧ OneValuePerTag (FTagValueContainer.removeValue
        ⟨[{ tag := ⟨["x"]⟩, derived := none }]⟩ ⟨["a"]⟩).2
    ∧ OneValuePerTag (FTagValueContainer.clear
        ⟨[{ tag := ⟨["x"]⟩, derived := none }]⟩)
    ∧ ((FTagValueContainer.setValue TagValueKind.intK
        ⟨[{ tag := ⟨["x"]⟩, derived := none }]⟩ ⟨["a"]⟩
        (show TagValueKind.intK.carrierB from (3 : Int))).values.filter
          fun e => decide (e.tag = ⟨["a"]⟩)).length = 1 :=
  c9_container_one_value_per_tag TagValueKind.intK
    ⟨[{ tag := ⟨["x"]⟩, derived := none }]⟩ ⟨["a"]⟩
    (show TagValueKind.intK.carrierB from (3 : Int)) (by decide)

theorem getRepository_name (s : Subsystem) (n : String) (r : MemoryRepository)
    (h : s.getRepository n = some r) : r.repositoryName = n := by
  have := List.find?_some h
  simpa using this

/-- C10: on a subsystem that has a `Default` repository, a set with a
valid tag and a non-null value whose RepositoryName does not name any
registered repository succeeds and writes the value through the first
repository named `Default`; in general the setter reports false exactly
when the tag is invalid, the value is null, or GetBestRepository finds
no target (named repository unregistered and no `Default` either); the
`Default` repository is the single repository created at subsystem
initialization, with priority 100. -/
theorem c10_set_falls_back_to_default (s : Subsystem) (tag tag2 : GameplayTag)
    (v : Holder) (value2 : Option Holder) (n : String) (rn : Option String)
    (hvalid : tag.isValid = true)
    (hnotreg : s.getRepository n = none)
    (hdefault : (s.getRepository defaultRepositoryName).isSome = true) :
    (s.setRawValue tag (some v) (some n)).1 = true
    ∧ (s.setRawValue tag (some v) (some n)).2.repositories
        = updateFirstNamed s.repositories defaultRepositoryName
            (fun r => r.setValue tag (some v))
    ∧ (s.setRawValue tag2 value2 rn).1
        = (tag2.isValid && value2.isSome && (s.getBestRepository rn).isSome)
    ∧ Subsystem.initialState.repositories = [defaultRepository]
    ∧ defaultRepository.priority = 100 := by
  obtain ⟨d, hd⟩ := Option.isSome_iff_exists.mp hdefault
  have hdn : d.repositoryName = defaultRepositoryName :=
    getRepository_name s defaultRepositoryName d hd
  have hbest : s.getBestRepository (some n) = some d := by
    simp [Subsystem.getBestRepository, hnotreg, hd]
  refine ⟨?_, ?_, ?_, by decide, by decide⟩
  · simp [Subsystem.setRawValue, hvalid, hbest]
  · simp [Subsystem.setRawValue, hvalid, hbest, hdn]
  · unfold Subsystem.setRawValue
    cases hval : tag2.isValid with
    | false => simp [hval]
    | true =>
      cases value2 with
      | none => simp
      | some w =>
        cases hb : s.getBestRepository rn with
        | none => simp [hval, hb]
        | some t => simp [hval, hb]

/-- Witness for C10: on the freshly initialized subsystem, setting `a`
with an unregistered repository name lands in the `Default` repository
and reports success; with an invalid tag the setter reports false. -/
theorem c10_set_falls_back_to_default_witness :
    (Subsystem.initialState.setRawValue ⟨["a"]⟩ (some (Holder.boolV true))
        (some "Nope")).1 = true
    ∧ (Subsystem.initialState.setRawValue ⟨["a"]⟩ (some (Holder.boolV true))
        (some "Nope")).2.repositories
        = updateFirstNamed Subsystem.initialState.repositories
            defaultRepositoryName
            (fun r => r.setValue ⟨["a"]⟩ (some (Holder.boolV true)))
    ∧ (Subsystem.initialState.setRawValue ⟨[]⟩ none none).1
        = (GameplayTag.isValid ⟨[]⟩ && Option.isSome (none : Option Holder)
            && (Subsystem.initialState.getBestRepository none).isSome)
    ∧ Subsystem.initialState.repositories = [defaultRepository]
    ∧ defaultRepository.priority = 100 :=
  c10_set_falls_back_to_default Subsystem.initialState ⟨["a"]⟩ ⟨[]⟩
    (Holder.boolV true) none "Nope" none (by decide) (by decide) (by decide)
